import Mathlib

/-!
Verification development for the RadiSense in-memory search engine.

The engine (class `RadiSenseSearchEngine` in the source) is shallowly embedded here:

* JS strings are modelled as `List Char` (`Str`); `String.prototype.toLowerCase`
  is modelled by mapping `Char.toLower` (the ASCII case fold; the corpus-relevant
  characters for all statements below are ASCII, and Unicode lowercasing is also
  idempotent, which is the only property used).
* JS `Map` (insertion-ordered, `set` updates in place) is modelled by association
  lists with `alSet` / `alLookup`; JS `Set` by duplicate-free insertion-ordered
  lists with `setAdd`.
* JS numbers are modelled by an arbitrary `LinearOrderedField K` (instantiated
  at `ℚ` for executable checks and at `ℝ` with `Real.log` for `Math.log`);
  division is the field division (total, with `x / 0 = 0`).  `Math.log` is an
  explicit parameter `lg` of the scoring functions.
* Fallible operations (`addDocument` on a document without the id field throws a
  `TypeError` in JS) return `Except`.
-/

/-- JS strings, modelled as their sequences of characters. -/
abbrev Str : Type := List Char

/-- The JS whitespace class `\s` (used by the URL-path test `/\/[^\s]*?\.html$/`),
as a list of inclusive code-point ranges. -/
def jsSpaceRanges : List (Nat × Nat) :=
  [(9, 13), (32, 32), (0xA0, 0xA0), (0x1680, 0x1680), (0x2000, 0x200A),
   (0x2028, 0x2029), (0x202F, 0x202F), (0x205F, 0x205F), (0x3000, 0x3000),
   (0xFEFF, 0xFEFF)]

/-- Membership of a character in the JS `\s` class. -/
def jsIsSpace (c : Char) : Bool :=
  jsSpaceRanges.any fun r => decide (r.1 ≤ c.toNat ∧ c.toNat ≤ r.2)

/-- The inclusive code-point ranges of the source's `SPACE_OR_PUNCTUATION`
character class, transcribed range by range from the regular expression on
lines 16-17 of the source (newline, carriage return, the ASCII ranges 0x20..0x23, 0x25..0x2A, 0x2C..0x2F, colon, semicolon, question mark, at sign, 0x5B..0x5D, underscore, the curly braces, and the listed Unicode space and punctuation ranges). -/
def spaceOrPunctuationRanges : List (Nat × Nat) :=
  [(0x0A, 0x0A), (0x0D, 0x0D), (0x20, 0x23), (0x25, 0x2A), (0x2C, 0x2F),
   (0x3A, 0x3A), (0x3B, 0x3B), (0x3F, 0x3F), (0x40, 0x40), (0x5B, 0x5D),
   (0x5F, 0x5F), (0x7B, 0x7B), (0x7D, 0x7D),
   (0xA0, 0xA0), (0xA1, 0xA1), (0xA7, 0xA7), (0xAB, 0xAB), (0xB6, 0xB6),
   (0xB7, 0xB7), (0xBB, 0xBB), (0xBF, 0xBF), (0x37E, 0x37E), (0x387, 0x387),
   (0x55A, 0x55F), (0x589, 0x589), (0x58A, 0x58A), (0x5BE, 0x5BE),
   (0x5C0, 0x5C0), (0x5C3, 0x5C3), (0x5C6, 0x5C6), (0x5F3, 0x5F3),
   (0x5F4, 0x5F4), (0x609, 0x609), (0x60A, 0x60A), (0x60C, 0x60C),
   (0x60D, 0x60D), (0x61B, 0x61B), (0x61E, 0x61E), (0x61F, 0x61F),
   (0x66A, 0x66D), (0x6D4, 0x6D4), (0x700, 0x70D), (0x7F7, 0x7F9),
   (0x830, 0x83E), (0x85E, 0x85E), (0x964, 0x964), (0x965, 0x965),
   (0x970, 0x970), (0x9FD, 0x9FD), (0xA76, 0xA76), (0xAF0, 0xAF0),
   (0xC77, 0xC77), (0xC84, 0xC84), (0xDF4, 0xDF4), (0xE4F, 0xE4F),
   (0xE5A, 0xE5A), (0xE5B, 0xE5B), (0xF04, 0xF12), (0xF14, 0xF14),
   (0xF3A, 0xF3D), (0xF85, 0xF85), (0xFD0, 0xFD4), (0xFD9, 0xFD9),
   (0xFDA, 0xFDA), (0x104A, 0x104F), (0x10FB, 0x10FB), (0x1360, 0x1368),
   (0x1400, 0x1400), (0x166E, 0x166E), (0x1680, 0x1680), (0x169B, 0x169B),
   (0x169C, 0x169C), (0x16EB, 0x16ED), (0x1735, 0x1735), (0x1736, 0x1736),
   (0x17D4, 0x17D6), (0x17D8, 0x17DA), (0x1800, 0x180A), (0x1944, 0x1944),
   (0x1945, 0x1945), (0x1A1E, 0x1A1E), (0x1A1F, 0x1A1F), (0x1AA0, 0x1AA6),
   (0x1AA8, 0x1AAD), (0x1B5A, 0x1B60), (0x1BFC, 0x1BFF), (0x1C3B, 0x1C3F),
   (0x1C7E, 0x1C7E), (0x1C7F, 0x1C7F), (0x1CC0, 0x1CC7), (0x1CD3, 0x1CD3),
   (0x2000, 0x200A), (0x2010, 0x2029), (0x202F, 0x2043), (0x2045, 0x2051),
   (0x2053, 0x205F), (0x207D, 0x207D), (0x207E, 0x207E), (0x208D, 0x208D),
   (0x208E, 0x208E), (0x2308, 0x230B), (0x2329, 0x2329), (0x232A, 0x232A),
   (0x2768, 0x2775), (0x27C5, 0x27C5), (0x27C6, 0x27C6), (0x27E6, 0x27EF),
   (0x2983, 0x2998), (0x29D8, 0x29DB), (0x29FC, 0x29FC), (0x29FD, 0x29FD),
   (0x2CF9, 0x2CFC), (0x2CFE, 0x2CFE), (0x2CFF, 0x2CFF), (0x2D70, 0x2D70),
   (0x2E00, 0x2E2E), (0x2E30, 0x2E4F), (0x3000, 0x3003), (0x3008, 0x3011),
   (0x3014, 0x301F), (0x3030, 0x3030), (0x303D, 0x303D), (0x30A0, 0x30A0),
   (0x30FB, 0x30FB), (0xA4FE, 0xA4FE), (0xA4FF, 0xA4FF), (0xA60D, 0xA60F),
   (0xA673, 0xA673), (0xA67E, 0xA67E), (0xA6F2, 0xA6F7), (0xA874, 0xA877),
   (0xA8CE, 0xA8CE), (0xA8CF, 0xA8CF), (0xA8F8, 0xA8FA), (0xA8FC, 0xA8FC),
   (0xA92E, 0xA92E), (0xA92F, 0xA92F), (0xA95F, 0xA95F), (0xA9C1, 0xA9CD),
   (0xA9DE, 0xA9DE), (0xA9DF, 0xA9DF), (0xAA5C, 0xAA5F), (0xAADE, 0xAADE),
   (0xAADF, 0xAADF), (0xAAF0, 0xAAF0), (0xAAF1, 0xAAF1), (0xABEB, 0xABEB),
   (0xFD3E, 0xFD3E), (0xFD3F, 0xFD3F), (0xFE10, 0xFE19), (0xFE30, 0xFE52),
   (0xFE54, 0xFE61), (0xFE63, 0xFE63), (0xFE68, 0xFE68), (0xFE6A, 0xFE6A),
   (0xFE6B, 0xFE6B), (0xFF01, 0xFF03), (0xFF05, 0xFF0A), (0xFF0C, 0xFF0F),
   (0xFF1A, 0xFF1A), (0xFF1B, 0xFF1B), (0xFF1F, 0xFF1F), (0xFF20, 0xFF20),
   (0xFF3B, 0xFF3D), (0xFF3F, 0xFF3F), (0xFF5B, 0xFF5B), (0xFF5D, 0xFF5D),
   (0xFF5F, 0xFF65)]

/-- Membership of a character in the source's `SPACE_OR_PUNCTUATION` class. -/
def SPACE_OR_PUNCTUATION (c : Char) : Bool :=
  spaceOrPunctuationRanges.any fun r => decide (r.1 ≤ c.toNat ∧ c.toNat ≤ r.2)

/-- Splitting a string at every separator character, keeping empty pieces.  The
source splits on maximal *runs* of separators (regex suffix `+`) and then drops
empty pieces; splitting at every single separator produces exactly the same
list of non-empty pieces, which is all the engine ever uses. -/
def splitSep (p : Char → Bool) : Str → List Str
  | [] => [[]]
  | c :: cs =>
    let r := splitSep p cs
    if p c then [] :: r else (c :: r.headI) :: r.tail

/-- Whether a (already lowercased) suffix consists of a slash followed by
non-whitespace characters only. -/
def slashNoSpaceSuffix (suf : Str) : Bool :=
  match suf with
  | c :: rest => decide (c = '/') && rest.all fun ch => !jsIsSpace ch
  | [] => false

/-- The characters of the literal `".html"`. -/
def htmlTail : Str := ['.', 'h', 't', 'm', 'l']

/-- The source's URL-path test `/\/[^\s]*?\.html$/.test(v)`: the regex matches
somewhere in `v` exactly when `v` ends with `".html"` and some slash in `v` is
followed only by non-whitespace characters up to the end of the string (the
matched fragment is that slash, the lazy non-whitespace run, and the final
`".html"`; the last five characters are never a slash, so the two phrasings
coincide). -/
def isUrlLike (v : Str) : Bool :=
  htmlTail.isSuffixOf v && v.tails.any slashNoSpaceSuffix

/-- The terms the indexer emits for one string field value (`addDocument`,
lines 60-78 of the source): lowercase the value; if it looks like a URL path
ending in `.html`, emit it whole, otherwise split on `SPACE_OR_PUNCTUATION`
and emit the non-empty pieces (the source's `if (term)` guard). -/
def emitTerms (fieldValue : Str) : List Str :=
  let v := fieldValue.map Char.toLower
  if isUrlLike v then [v]
  else (splitSep SPACE_OR_PUNCTUATION v).filter fun t => !t.isEmpty

/-- Lookup in an insertion-ordered association list (JS `Map.prototype.get`,
also used for JS object property reads on our flat documents). -/
def alLookup {α : Type} (k : Str) : List (Str × α) → Option α
  | [] => none
  | p :: rest => if p.1 = k then some p.2 else alLookup k rest

/-- Insertion or in-place update in an insertion-ordered association list
(JS `Map.prototype.set`: an existing key keeps its position, a new key is
appended). -/
def alSet {α : Type} (k : Str) (v : α) : List (Str × α) → List (Str × α)
  | [] => [(k, v)]
  | p :: rest => if p.1 = k then (k, v) :: rest else p :: alSet k v rest

/-- JS `Set.prototype.add`: append the element unless it is already present. -/
def setAdd (x : Str) (s : List Str) : List Str :=
  if x ∈ s then s else s ++ [x]

/-- One row update of the Levenshtein dynamic-programming matrix
(`_levenshteinDistance`, lines 122-134 of the source).  `prevRow` is the
already-finished previous row (as a function of the column index), `targetChar`
is `target[rowIndex - 1]`, and the entry at column 0 is the row index; column
`colIndex + 1` takes the minimum of deletion (cell above plus one), insertion
(cell to the left plus one), and substitution (diagonal cell plus the
character-comparison cost), exactly as the loop body writes it. -/
def levRowFun (source : Str) (targetChar : Char) (prevRow : Nat → Nat) (rowIndex : Nat) : Nat → Nat
  | 0 => rowIndex
  | colIndex + 1 =>
    min (prevRow (colIndex + 1) + 1)
      (min (levRowFun source targetChar prevRow rowIndex colIndex + 1)
        (prevRow colIndex + if source.getD colIndex ' ' = targetChar then 0 else 1))

/-- The Levenshtein matrix of the source, row by row: row 0 is `0, 1, 2, ...`
(the initializer `rowIndex === 0 ? colIndex : rowIndex`; the other rows'
initial fill is overwritten everywhere except at column 0, where it stays the
row index, which is the second clause of `levRowFun`). -/
def levMatrix (source target : Str) : Nat → Nat → Nat
  | 0 => fun colIndex => colIndex
  | rowIndex + 1 =>
    levRowFun source (target.getD rowIndex ' ') (levMatrix source target rowIndex) (rowIndex + 1)

/-- The source's `_levenshteinDistance`: the bottom-right cell of the
`(|target| + 1) × (|source| + 1)` dynamic-programming matrix. -/
def _levenshteinDistance (source target : Str) : Nat :=
  levMatrix source target target.length source.length

/-- A sequence of single-character edits transforming the first string into the
second, counted by its number of costly operations: read left to right, each
constructor either keeps a character (free), substitutes one character for
another, deletes a character, or inserts a character (each costing one).
`EditScript n s t` holds exactly when some sequence of `n` single-character
insertions, deletions, and substitutions transforms `s` into `t`. -/
inductive EditScript : Nat → Str → Str → Prop where
  | nil : EditScript 0 [] []
  | keep (a : Char) {n : Nat} {s t : Str} :
      EditScript n s t → EditScript n (s ++ [a]) (t ++ [a])
  | substitute (a b : Char) {n : Nat} {s t : Str} :
      EditScript n s t → EditScript (n + 1) (s ++ [a]) (t ++ [b])
  | delete (a : Char) {n : Nat} {s t : Str} :
      EditScript n s t → EditScript (n + 1) (s ++ [a]) t
  | insert (b : Char) {n : Nat} {s t : Str} :
      EditScript n s t → EditScript (n + 1) s (t ++ [b])

/-- A document value: JS documents here are flat string-or-number records. -/
inductive Value (K : Type) where
  | str (s : Str)
  | num (x : K)
deriving DecidableEq

/-- A document: a flat record from field name to string-or-number value. -/
abbrev Document (K : Type) : Type := List (Str × Value K)

/-- JS `toString()` of a document value; stringification of numbers is an
explicit parameter (its exact algorithm is irrelevant to every claim). -/
def Value.toStr {K : Type} (numToStr : K → Str) : Value K → Str
  | .str s => s
  | .num x => numToStr x

/-- The numeric reading `(v as number)` used for the custom boost factor.  In
JS a non-numeric value would make the additive boost NaN; the model returns 0
(an additive no-op) in that case, and every statement about the custom boost
below only concerns numeric values. -/
def Value.asNum {K : Type} [Zero K] : Value K → K
  | .num x => x
  | .str _ => 0

/-- The engine's configuration (interface `RadiSenseSearchOptions`). -/
structure RadiSenseSearchOptions (K : Type) where
  fields : List Str
  idField : Str
  customBoostFactorField : Option Str := none
  boost : Option (List (Str × K)) := none
  specificDocumentBoosts : Option (List (Str × K)) := none
  initialResults : Option (List Str) := none

/-- The engine state (the private fields of class `RadiSenseSearchEngine`). -/
structure RadiSenseSearchEngine (K : Type) where
  options : RadiSenseSearchOptions K
  documents : List (Str × Document K)
  invertedIndex : List (Str × List Str)
  documentLengths : List (Str × Nat)
  totalDocuments : Nat
  averageDocumentLength : K
  specificDocumentBoosts : List (Str × K)

/-- The constructor: store the options, initialize every container empty and
both counters zero, and copy `options.specificDocumentBoosts` into the
`specificDocumentBoosts` map. -/
def mkRadiSenseSearchEngine {K : Type} [Zero K] (options : RadiSenseSearchOptions K) :
    RadiSenseSearchEngine K :=
  { options := options
    documents := []
    invertedIndex := []
    documentLengths := []
    totalDocuments := 0
    averageDocumentLength := 0
    specificDocumentBoosts :=
      (options.specificDocumentBoosts.getD []).foldl (fun m p => alSet p.1 p.2 m) [] }

/-- The error raised by `addDocument` when the id field is absent
(`document[this.options.idField].toString()` throws a `TypeError` on the very
first line, before any state is touched). -/
def missingIdError : Str :=
  ['m', 'i', 's', 's', 'i', 'n', 'g', ' ', 'i', 'd', ' ', 'f', 'i', 'e', 'l', 'd']

/-- The successful body of `addDocument`, given the stringified id: build the
projected document (id field first, then every configured field present on the
input, an existing key being overwritten in place exactly like the object
spread), store it, increment `totalDocuments`, accumulate the lengths of the
string-valued configured fields while inserting their emitted terms into the
inverted index, and record the total length.  `averageDocumentLength` is not
touched. -/
def addDocumentCore {K : Type} (e : RadiSenseSearchEngine K) (document : Document K)
    (documentId : Str) : RadiSenseSearchEngine K :=
  let filteredDocument :=
    e.options.fields.foldl
      (fun acc field =>
        match alLookup field document with
        | some v => alSet field v acc
        | none => acc)
      [(e.options.idField, Value.str documentId)]
  let lengthAndIndex :=
    e.options.fields.foldl
      (fun (p : Nat × List (Str × List Str)) field =>
        match alLookup field document with
        | some (Value.str fieldValue) =>
          (p.1 + fieldValue.length,
           (emitTerms fieldValue).foldl
             (fun idx term => alSet term (setAdd documentId ((alLookup term idx).getD [])) idx)
             p.2)
        | _ => p)
      (0, e.invertedIndex)
  { e with
    documents := alSet documentId filteredDocument e.documents
    totalDocuments := e.totalDocuments + 1
    invertedIndex := lengthAndIndex.2
    documentLengths := alSet documentId lengthAndIndex.1 e.documentLengths }

/-- The public `addDocument`: resolve and stringify the id field (throwing if it
is absent), then run the successful body. -/
def addDocument {K : Type} (numToStr : K → Str) (e : RadiSenseSearchEngine K)
    (document : Document K) : Except Str (RadiSenseSearchEngine K) :=
  match alLookup e.options.idField document with
  | none => .error missingIdError
  | some v => .ok (addDocumentCore e document (v.toStr numToStr))

/-- A sequence of `addDocument` calls from a caller that keeps its engine when a
call throws. -/
def addDocuments {K : Type} (numToStr : K → Str) (e : RadiSenseSearchEngine K)
    (documents : List (Document K)) : RadiSenseSearchEngine K :=
  documents.foldl
    (fun acc d =>
      match addDocument numToStr acc d with
      | .ok e2 => e2
      | .error _ => acc)
    e

variable {K : Type} [LinearOrderedField K] [FloorRing K]

/-- JS `Math.round`: the floor of the argument plus one half (ties round up). -/
def jsRound (x : K) : Int := ⌊x + 1 / 2⌋

/-- The source's `_calculateBM25` (lines 86-111): a binary-presence BM25+ score
for one (document, indexed term) pair, with constants `k = 1.2`, `b = 0.7`,
`δ = 0.5`.  `lg` models `Math.log`.  Note the division by the engine's
`averageDocumentLength` field. -/
def _calculateBM25 (lg : K → K) (e : RadiSenseSearchEngine K)
    (documentId term : Str) : K :=
  let k : K := 12 / 10
  let b : K := 7 / 10
  let d : K := 1 / 2
  let documentLength : Nat := (alLookup documentId e.documentLengths).getD 0
  let termDocuments : List Str := (alLookup term e.invertedIndex).getD []
  let termFrequency : K := if documentId ∈ termDocuments then 1 else 0
  let documentFrequency : K := (termDocuments.length : K)
  let IDF : K :=
    lg (((e.totalDocuments : K) - documentFrequency + 1 / 2) / (documentFrequency + 1 / 2) + 1)
  let frequencyComponent : K :=
    termFrequency * (k + 1) /
        (termFrequency + k * (1 - b + b * ((documentLength : K) / e.averageDocumentLength))) +
      d
  IDF * frequencyComponent

/-- The score contribution one candidate `(documentId, indexedTerm)` pair adds
to the accumulator for one iterated `field` (the body of `search`,
lines 190-210): BM25 times the match-type penalty, multiplied by the specific
document boost when one is configured and truthy (a configured factor of `0` is
falsy in JS and is skipped), multiplied by the per-field boost when defined and
truthy, plus `0.011` times the custom boost field's value when that field name
is configured, truthy (non-empty), and present on the stored document. -/
def candidateScore (lg : K → K) (e : RadiSenseSearchEngine K) (field : Str)
    (document : Document K) (documentId indexedTerm : Str) (penaltyFactor : K) : K :=
  let score1 := _calculateBM25 lg e documentId indexedTerm * penaltyFactor
  let score2 :=
    match alLookup documentId e.specificDocumentBoosts with
    | some specificBoost => if specificBoost = 0 then score1 else score1 * specificBoost
    | none => score1
  let score3 :=
    match e.options.boost with
    | some boostMap =>
      match alLookup field boostMap with
      | some boostFactor => if boostFactor = 0 then score2 else score2 * boostFactor
      | none => score2
    | none => score2
  match e.options.customBoostFactorField with
  | some cbf =>
    if cbf.isEmpty then score3
    else
      match alLookup cbf document with
      | some v => score3 + v.asNum * (11 / 1000)
      | none => score3
  | none => score3

/-- One returned search result.  The general path also carries a `textMatch`
property equal to the score; the wildcard path does not set it. -/
structure SearchResult (K : Type) where
  documentId : Str
  score : K
  document : Option (Document K)
  textMatch : Option K
deriving DecidableEq

/-- Visit one posting-list document id (the `docIds.forEach` body,
lines 186-214): skip ids whose document is missing from the store; otherwise
invoke the filter when one is supplied (recorded in the trace component),
and on acceptance add the candidate's score contribution to the accumulator
map. -/
def visitDocId (lg : K → K) (e : RadiSenseSearchEngine K)
    (filterFunction : Option (Option (Document K) → Bool)) (field indexedTerm : Str)
    (penaltyFactor : K) (acc : List (Str × K) × List Str) (documentId : Str) :
    List (Str × K) × List Str :=
  match alLookup documentId e.documents with
  | none => acc
  | some document =>
    let tr :=
      match filterFunction with
      | none => acc.2
      | some _ => acc.2 ++ [documentId]
    let pass :=
      match filterFunction with
      | none => true
      | some f => f (some document)
    if pass then
      (alSet documentId
        ((alLookup documentId acc.1).getD 0 +
          candidateScore lg e field document documentId indexedTerm penaltyFactor)
        acc.1,
       tr)
    else (acc.1, tr)

/-- Visit one inverted-index entry for one query term (the
`invertedIndex.forEach` body, lines 169-216): an indexed term matches as a
prefix when it starts with the query term, and fuzzily when its Levenshtein
distance to the query term is within the cap and it is not a prefix match;
on a match, the match-type penalty is computed and every posting id is
visited. -/
def visitEntry (lg : K → K) (e : RadiSenseSearchEngine K)
    (filterFunction : Option (Option (Document K) → Bool)) (field searchTerm : Str)
    (maxDistance : Nat) (acc : List (Str × K) × List Str) (entry : Str × List Str) :
    List (Str × K) × List Str :=
  let indexedTerm := entry.1
  let isPrefixMatch := searchTerm.isPrefixOf indexedTerm
  let levenshteinDistance := _levenshteinDistance searchTerm indexedTerm
  let isFuzzyMatch := decide (levenshteinDistance ≤ maxDistance) && !isPrefixMatch
  if isPrefixMatch || isFuzzyMatch then
    let penaltyFactor : K :=
      if isPrefixMatch then
        let distance := indexedTerm.length - searchTerm.length
        375 / 1000 * (indexedTerm.length : K) / ((indexedTerm.length : K) + 3 / 10 * (distance : K))
      else
        45 / 100 * (indexedTerm.length : K) / ((indexedTerm.length : K) + (levenshteinDistance : K))
    entry.2.foldl (visitDocId lg e filterFunction field indexedTerm penaltyFactor) acc
  else acc

/-- Visit one query term for one field (the `searchTerms.forEach` body,
lines 166-217): compute the fuzzy-distance cap
`min(6, Math.round(|searchTerm| * 0.35))` and walk the whole inverted index. -/
def visitTerm (lg : K → K) (e : RadiSenseSearchEngine K)
    (filterFunction : Option (Option (Document K) → Bool)) (field : Str)
    (acc : List (Str × K) × List Str) (searchTerm : Str) :
    List (Str × K) × List Str :=
  let maxDistance : Nat := min 6 (jsRound ((searchTerm.length : K) * (35 / 100))).toNat
  e.invertedIndex.foldl (visitEntry lg e filterFunction field searchTerm maxDistance) acc

/-- Visit one configured field (the `fields.forEach` body, lines 164-218): a
field equal to the configured custom boost factor field is skipped. -/
def visitField (lg : K → K) (e : RadiSenseSearchEngine K)
    (filterFunction : Option (Option (Document K) → Bool)) (searchTerms : List Str)
    (acc : List (Str × K) × List Str) (field : Str) :
    List (Str × K) × List Str :=
  if e.options.customBoostFactorField = some field then acc
  else searchTerms.foldl (visitTerm lg e filterFunction field) acc

/-- The wildcard query string `"*"`. -/
def starQuery : Str := ['*']

/-- The source's `search` (lines 140-234), instrumented with the sequence of
document ids on which the supplied filter predicate is invoked (the second
component; it is empty when no filter is supplied).  The wildcard path maps the
configured `initialResults` to score-1 entries whose document is the (possibly
missing) store lookup and filters them with the predicate.  The general path
lowercases and splits the query, accumulates candidate scores per document over
fields, query terms, inverted-index entries, and posting ids, then assembles the
accumulator into result records, sorts them by descending score (JS `sort` is
stable; so is `List.mergeSort`), keeps scores strictly above `2.1`, and
truncates to 34 entries. -/
def searchT (lg : K → K) (e : RadiSenseSearchEngine K) (query : Str)
    (filterFunction : Option (Option (Document K) → Bool)) :
    List (SearchResult K) × List Str :=
  if query = starQuery then
    (((e.options.initialResults.getD []).map
        (fun id => SearchResult.mk id 1 (alLookup id e.documents) none)).filter
      (fun r =>
        match filterFunction with
        | none => true
        | some f => f r.document),
     match filterFunction with
     | none => []
     | some _ => e.options.initialResults.getD [])
  else
    let searchTerms :=
      (splitSep SPACE_OR_PUNCTUATION (query.map Char.toLower)).filter fun t => !t.isEmpty
    let pair := e.options.fields.foldl (visitField lg e filterFunction searchTerms) ([], [])
    let assembled :=
      pair.1.map fun p => SearchResult.mk p.1 p.2 (alLookup p.1 e.documents) (some p.2)
    (((assembled.mergeSort fun a b => decide (b.score ≤ a.score)).filter
          (fun r => decide ((21 : K) / 10 < r.score))).take 34,
     pair.2)

/-- The source's `search`: the result list of the instrumented evaluator. -/
def search (lg : K → K) (e : RadiSenseSearchEngine K) (query : Str)
    (filterFunction : Option (Option (Document K) → Bool)) : List (SearchResult K) :=
  (searchT lg e query filterFunction).1

/-- Trace-only mirror of `visitDocId`: the filter is invoked exactly on the
posting ids whose document is present in the store. -/
def visitDocIdT (e : RadiSenseSearchEngine K) (tr : List Str) (documentId : Str) : List Str :=
  match alLookup documentId e.documents with
  | none => tr
  | some _ => tr ++ [documentId]

/-- Trace-only mirror of `visitEntry`. -/
def visitEntryT (e : RadiSenseSearchEngine K) (searchTerm : Str) (maxDistance : Nat)
    (tr : List Str) (entry : Str × List Str) : List Str :=
  let isPrefixMatch := searchTerm.isPrefixOf entry.1
  let isFuzzyMatch :=
    decide (_levenshteinDistance searchTerm entry.1 ≤ maxDistance) && !isPrefixMatch
  if isPrefixMatch || isFuzzyMatch then entry.2.foldl (visitDocIdT e) tr else tr

/-- Trace-only mirror of `visitTerm`. -/
def visitTermT (e : RadiSenseSearchEngine K) (tr : List Str) (searchTerm : Str) : List Str :=
  let maxDistance : Nat := min 6 (jsRound ((searchTerm.length : K) * (35 / 100))).toNat
  e.invertedIndex.foldl (visitEntryT e searchTerm maxDistance) tr

/-- Trace-only mirror of `visitField`. -/
def visitFieldT (e : RadiSenseSearchEngine K) (searchTerms : List Str) (tr : List Str)
    (field : Str) : List Str :=
  if e.options.customBoostFactorField = some field then tr
  else searchTerms.foldl (visitTermT e) tr

/-- The sequence of document ids on which `search` invokes a supplied filter
predicate, as a function of the engine state and the query alone: one
invocation per listed id on the wildcard path, and one invocation per iterated
field, query term, matching indexed term, and store-present posting id on the
general path. -/
def filterCallSequence (e : RadiSenseSearchEngine K) (query : Str) : List Str :=
  if query = starQuery then e.options.initialResults.getD []
  else
    let searchTerms :=
      (splitSep SPACE_OR_PUNCTUATION (query.map Char.toLower)).filter fun t => !t.isEmpty
    e.options.fields.foldl (visitFieldT e searchTerms) []

lemma alLookup_alSet {α : Type} (k k' : Str) (v : α) (l : List (Str × α)) :
    alLookup k' (alSet k v l) = if k' = k then some v else alLookup k' l := by
  induction l with
  | nil =>
    by_cases h : k' = k
    · subst h; simp [alSet, alLookup]
    · have h2 : ¬k = k' := fun hx => h hx.symm
      simp [alSet, alLookup, h, h2]
  | cons p rest ih =>
    by_cases hp : p.1 = k
    · by_cases h : k' = k
      · subst h; simp [alSet, alLookup, hp]
      · have h2 : ¬k = k' := fun hx => h hx.symm
        have h3 : ¬p.1 = k' := fun hx => h (hx.symm.trans hp)
        simp [alSet, alLookup, hp, h, h2, h3]
    · by_cases hpk : p.1 = k'
      · have hk : ¬k' = k := fun h => hp (hpk.trans h)
        simp [alSet, alLookup, hp, hpk, hk]
      · simp [alSet, alLookup, hp, hpk, ih]

lemma length_alSet_of_lookup_none {α : Type} (k : Str) (v : α) (l : List (Str × α))
    (h : alLookup k l = none) : (alSet k v l).length = l.length + 1 := by
  induction l with
  | nil => rfl
  | cons p rest ih =>
    by_cases hp : p.1 = k
    · simp [alLookup, hp] at h
    · simp only [alLookup, hp, if_neg, ite_false] at h
      simp [alSet, hp, ih h]

/-- C9.  On a document missing the configured id field, `addDocument` fails
with an error (in the source, `document[this.options.idField].toString()`
throws a `TypeError` on the first line of the method) and, because the throw
happens before any assignment, the engine state is left entirely unchanged:
the caller keeps the pre-call store, index, length table, and counter. -/
theorem C9_missing_id_fails_without_effect (numToStr : K → Str)
    (e : RadiSenseSearchEngine K) (document : Document K)
    (h : alLookup e.options.idField document = none) :
    addDocument numToStr e document = Except.error missingIdError := by
  unfold addDocument
  rw [h]

def optsC9 : RadiSenseSearchOptions ℚ :=
  { fields := ["title".toList], idField := "path".toList }

/-- Witness for C9 at a concrete engine and a concrete document (the empty
record) that lacks the id field. -/
theorem C9_missing_id_fails_without_effect_witness :
    alLookup (mkRadiSenseSearchEngine optsC9).options.idField ([] : Document ℚ) = none ∧
      addDocument (fun _ => []) (mkRadiSenseSearchEngine optsC9) ([] : Document ℚ) =
        Except.error missingIdError :=
  ⟨by decide,
   C9_missing_id_fails_without_effect (fun _ => []) (mkRadiSenseSearchEngine optsC9) [] (by decide)⟩

lemma averageDocumentLength_addDocuments (numToStr : K → Str) :
    ∀ (ds : List (Document K)) (e : RadiSenseSearchEngine K),
      (addDocuments numToStr e ds).averageDocumentLength = e.averageDocumentLength := by
  intro ds
  induction ds with
  | nil => intro e; rfl
  | cons d rest ih =>
    intro e
    cases hv : alLookup e.options.idField d with
    | none =>
      have hstep : addDocuments numToStr e (d :: rest) = addDocuments numToStr e rest := by
        simp [addDocuments, addDocument, hv]
      rw [hstep]; exact ih e
    | some v =>
      have hstep : addDocuments numToStr e (d :: rest)
          = addDocuments numToStr (addDocumentCore e d (v.toStr numToStr)) rest := by
        simp [addDocuments, addDocument, hv]
      rw [hstep, ih]
      rfl

/-- C4.  The `averageDocumentLength` field is never written by ingest: it is 0
at construction, `addDocument` leaves it unchanged, it is still 0 after every
sequence of `addDocument` calls, and it is exactly the denominator of the
length normalization inside `_calculateBM25`. -/
theorem C4_averageDocumentLength_never_written (numToStr : K → Str) (lg : K → K)
    (options : RadiSenseSearchOptions K) (ds : List (Document K))
    (e : RadiSenseSearchEngine K) (document : Document K) (documentId term : Str) :
    (mkRadiSenseSearchEngine options).averageDocumentLength = 0 ∧
    (addDocumentCore e document documentId).averageDocumentLength = e.averageDocumentLength ∧
    (addDocuments numToStr (mkRadiSenseSearchEngine options) ds).averageDocumentLength = 0 ∧
    _calculateBM25 lg e documentId term =
      lg (((e.totalDocuments : K) - (((alLookup term e.invertedIndex).getD []).length : K) + 1 / 2) /
            ((((alLookup term e.invertedIndex).getD []).length : K) + 1 / 2) + 1) *
        ((if documentId ∈ (alLookup term e.invertedIndex).getD [] then (1 : K) else 0) *
              (12 / 10 + 1) /
            ((if documentId ∈ (alLookup term e.invertedIndex).getD [] then (1 : K) else 0) +
              12 / 10 *
                (1 - 7 / 10 +
                  7 / 10 *
                    ((((alLookup documentId e.documentLengths).getD 0 : Nat) : K) /
                      e.averageDocumentLength))) +
          1 / 2) :=
  ⟨rfl, rfl, averageDocumentLength_addDocuments numToStr ds _, rfl⟩

/-- C1, amended.  On the wildcard query with no filter, `search` returns one
entry per configured initial-result id, in order, with score 1 and with the
document of the entry being the store lookup; an id that is absent from the
store is NOT skipped — it still yields an entry (whose document is absent,
`undefined` in the source, which uses a non-null assertion on
`this.documents.get(id)`). -/
theorem C1_wildcard_amended (lg : K → K) (e : RadiSenseSearchEngine K) :
    search lg e starQuery none =
      (e.options.initialResults.getD []).map
        fun id => SearchResult.mk id 1 (alLookup id e.documents) none := by
  simp [search, searchT]

def optsC1 : RadiSenseSearchOptions ℚ :=
  { fields := ["title".toList], idField := "path".toList,
    initialResults := some ["a".toList, "b".toList] }

def docC1 : Document ℚ :=
  [("path".toList, Value.str "a".toList), ("title".toList, Value.str "ab".toList)]

def engC1 : RadiSenseSearchEngine ℚ :=
  addDocuments (fun _ => []) (mkRadiSenseSearchEngine optsC1) [docC1]

/-- C1 counterexample.  A concrete engine whose `initialResults` list one
stored id (`a`) and one absent id (`b`): the unfiltered wildcard query returns
TWO results, not one — the absent id is not skipped (its entry has no
document). -/
theorem C1_wildcard_counterexample :
    (alLookup "a".toList engC1.documents).isSome = true ∧
    alLookup "b".toList engC1.documents = none ∧
    search (fun _ => 0) engC1 starQuery none =
      [SearchResult.mk "a".toList 1 (alLookup "a".toList engC1.documents) none,
       SearchResult.mk "b".toList 1 none none] ∧
    ¬ (search (fun _ => 0) engC1 starQuery none).length = 1 := by decide

def optsC3 : RadiSenseSearchOptions ℚ :=
  { fields := ["title".toList], idField := "path".toList }

def docC3 : Document ℚ :=
  [("path".toList, Value.str "a".toList), ("title".toList, Value.str "hello".toList)]

/-- C3 counterexample.  Adding the same document twice: `totalDocuments`
increments unconditionally while `Map.set` overwrites the single store entry,
so the counter (2) exceeds the store size (1) and the claimed invariant fails
for this sequence of `addDocument` calls. -/
theorem C3_counter_counterexample :
    (addDocuments (fun _ => []) (mkRadiSenseSearchEngine optsC3) [docC3, docC3]).totalDocuments = 2 ∧
    (addDocuments (fun _ => []) (mkRadiSenseSearchEngine optsC3) [docC3, docC3]).documents.length = 1 ∧
    ¬ (addDocuments (fun _ => []) (mkRadiSenseSearchEngine optsC3) [docC3, docC3]).totalDocuments =
       (addDocuments (fun _ => []) (mkRadiSenseSearchEngine optsC3) [docC3, docC3]).documents.length := by
  decide

/-- The stringified id a document would get on ingest (junk when the id field
is absent). -/
def docIdOf (numToStr : K → Str) (idField : Str) (document : Document K) : Str :=
  ((alLookup idField document).getD (Value.str [])).toStr numToStr

lemma addDocuments_count_aux (numToStr : K → Str) :
    ∀ (ds : List (Document K)) (e : RadiSenseSearchEngine K),
      (∀ d ∈ ds, (alLookup e.options.idField d).isSome) →
      (ds.map (docIdOf numToStr e.options.idField)).Nodup →
      (∀ d ∈ ds, alLookup (docIdOf numToStr e.options.idField d) e.documents = none) →
      e.totalDocuments = e.documents.length →
      (addDocuments numToStr e ds).totalDocuments = (addDocuments numToStr e ds).documents.length := by
  intro ds
  induction ds with
  | nil => intro e _ _ _ h4; exact h4
  | cons d rest ih =>
    intro e h1 h2 h3 h4
    obtain ⟨v, hv⟩ := Option.isSome_iff_exists.mp (h1 d (List.mem_cons_self d rest))
    have hid : docIdOf numToStr e.options.idField d = v.toStr numToStr := by
      unfold docIdOf; rw [hv]; rfl
    have hstep : addDocuments numToStr e (d :: rest)
        = addDocuments numToStr (addDocumentCore e d (v.toStr numToStr)) rest := by
      simp [addDocuments, addDocument, hv]
    set e1 := addDocumentCore e d (v.toStr numToStr) with he1
    have hopts : e1.options = e.options := rfl
    have hdocs : e1.documents = alSet (v.toStr numToStr)
        (e.options.fields.foldl
          (fun acc field =>
            match alLookup field d with
            | some w => alSet field w acc
            | none => acc)
          [(e.options.idField, Value.str (v.toStr numToStr))]) e.documents := rfl
    have hnone : alLookup (v.toStr numToStr) e.documents = none := by
      rw [← hid]; exact h3 d (List.mem_cons_self d rest)
    have hlen : e1.documents.length = e.documents.length + 1 := by
      rw [hdocs]; exact length_alSet_of_lookup_none _ _ _ hnone
    have hcount : e1.totalDocuments = e1.documents.length := by
      show e.totalDocuments + 1 = e1.documents.length
      rw [hlen, h4]
    rw [hstep]
    refine ih e1 ?_ ?_ ?_ hcount
    · intro d2 hd2; rw [hopts]; exact h1 d2 (List.mem_cons_of_mem d hd2)
    · rw [hopts]; exact (List.nodup_cons.mp h2).2
    · intro d2 hd2
      rw [hopts, hdocs, alLookup_alSet]
      have hne : docIdOf numToStr e.options.idField d2 ≠ v.toStr numToStr := by
        rw [← hid]
        intro hcontra
        exact (List.nodup_cons.mp h2).1
          (hcontra ▸ List.mem_map_of_mem (docIdOf numToStr e.options.idField) hd2)
      rw [if_neg hne]
      exact h3 d2 (List.mem_cons_of_mem d hd2)

/-- C3, amended.  `totalDocuments` counts `addDocument` calls, not store
entries: re-adding an existing id increments the counter while overwriting the
single store entry.  The claimed equality `totalDocuments = |document_store|`
does hold for every sequence of `addDocument` calls whose (present) id-field
values stringify to pairwise-distinct ids. -/
theorem C3_counter_amended (numToStr : K → Str) (options : RadiSenseSearchOptions K)
    (ds : List (Document K))
    (h1 : ∀ d ∈ ds, (alLookup options.idField d).isSome)
    (h2 : (ds.map (docIdOf numToStr options.idField)).Nodup) :
    (addDocuments numToStr (mkRadiSenseSearchEngine options) ds).totalDocuments =
      (addDocuments numToStr (mkRadiSenseSearchEngine options) ds).documents.length := by
  refine addDocuments_count_aux numToStr ds (mkRadiSenseSearchEngine options) h1 h2 ?_ rfl
  intro d _
  rfl

def docC3b : Document ℚ :=
  [("path".toList, Value.str "b".toList), ("title".toList, Value.str "world".toList)]

/-- Witness for the amended C3 at a concrete two-document sequence with
distinct ids. -/
theorem C3_counter_amended_witness :
    ((∀ d ∈ [docC3, docC3b], (alLookup optsC3.idField d).isSome) ∧
      ([docC3, docC3b].map (docIdOf (fun _ => []) optsC3.idField)).Nodup) ∧
    (addDocuments (fun _ => []) (mkRadiSenseSearchEngine optsC3) [docC3, docC3b]).totalDocuments =
      (addDocuments (fun _ => []) (mkRadiSenseSearchEngine optsC3) [docC3, docC3b]).documents.length :=
  ⟨⟨by decide, by decide⟩,
   C3_counter_amended (fun _ => []) optsC3 [docC3, docC3b] (by decide) (by decide)⟩

lemma trace_visitDocId (lg : K → K) (e : RadiSenseSearchEngine K)
    (f : Option (Document K) → Bool) (field indexedTerm : Str) (penaltyFactor : K) :
    ∀ (ids : List Str) (acc : List (Str × K) × List Str),
      (ids.foldl (visitDocId lg e (some f) field indexedTerm penaltyFactor) acc).2
        = ids.foldl (visitDocIdT e) acc.2 := by
  intro ids
  induction ids with
  | nil => intro acc; rfl
  | cons id rest ih =>
    intro acc
    rw [List.foldl_cons, List.foldl_cons, ih]
    congr 1
    show (visitDocId lg e (some f) field indexedTerm penaltyFactor acc id).2
      = visitDocIdT e acc.2 id
    simp only [visitDocId, visitDocIdT]
    rcases h : alLookup id e.documents with _ | document
    · simp only [h]
    · simp only [h]
      by_cases hf : f (some document) = true
      · rw [if_pos hf]
      · rw [if_neg hf]

lemma trace_visitEntry (lg : K → K) (e : RadiSenseSearchEngine K)
    (f : Option (Document K) → Bool) (field searchTerm : Str) (maxDistance : Nat) :
    ∀ (entries : List (Str × List Str)) (acc : List (Str × K) × List Str),
      (entries.foldl (visitEntry lg e (some f) field searchTerm maxDistance) acc).2
        = entries.foldl (visitEntryT e searchTerm maxDistance) acc.2 := by
  intro entries
  induction entries with
  | nil => intro acc; rfl
  | cons entry rest ih =>
    intro acc
    rw [List.foldl_cons, List.foldl_cons, ih]
    congr 1
    show (visitEntry lg e (some f) field searchTerm maxDistance acc entry).2
      = visitEntryT e searchTerm maxDistance acc.2 entry
    simp only [visitEntry, visitEntryT]
    by_cases h : (searchTerm.isPrefixOf entry.1 ||
        (decide (_levenshteinDistance searchTerm entry.1 ≤ maxDistance) &&
          !searchTerm.isPrefixOf entry.1)) = true
    · rw [if_pos h, if_pos h]
      exact trace_visitDocId lg e f field entry.1 _ entry.2 acc
    · rw [if_neg h, if_neg h]

lemma trace_visitTerm (lg : K → K) (e : RadiSenseSearchEngine K)
    (f : Option (Document K) → Bool) (field : Str) :
    ∀ (searchTerms : List Str) (acc : List (Str × K) × List Str),
      (searchTerms.foldl (visitTerm lg e (some f) field) acc).2
        = searchTerms.foldl (visitTermT e) acc.2 := by
  intro searchTerms
  induction searchTerms with
  | nil => intro acc; rfl
  | cons st rest ih =>
    intro acc
    rw [List.foldl_cons, List.foldl_cons, ih]
    congr 1
    show (visitTerm lg e (some f) field acc st).2 = visitTermT e acc.2 st
    simp only [visitTerm, visitTermT]
    exact trace_visitEntry lg e f field st _ e.invertedIndex acc

lemma trace_visitField (lg : K → K) (e : RadiSenseSearchEngine K)
    (f : Option (Document K) → Bool) (searchTerms : List Str) :
    ∀ (fields : List Str) (acc : List (Str × K) × List Str),
      (fields.foldl (visitField lg e (some f) searchTerms) acc).2
        = fields.foldl (visitFieldT e searchTerms) acc.2 := by
  intro fields
  induction fields with
  | nil => intro acc; rfl
  | cons field rest ih =>
    intro acc
    rw [List.foldl_cons, List.foldl_cons, ih]
    congr 1
    show (visitField lg e (some f) searchTerms acc field).2
      = visitFieldT e searchTerms acc.2 field
    simp only [visitField, visitFieldT]
    by_cases h : e.options.customBoostFactorField = some field
    · rw [if_pos h, if_pos h]
    · rw [if_neg h, if_neg h]
      exact trace_visitTerm lg e f field searchTerms acc

/-- C2, amended.  The sequence of documents on which one `search` call invokes
a supplied filter predicate depends only on the engine state and the query —
never on the predicate itself or on accumulated scores — and contains one
invocation per iterated field, query term, matching indexed term, and
store-present posting id (one per listed id on the wildcard path).  The same
candidate document is therefore filtered once per matching context, which can
be several times per search; `at most once per candidate document per search`
does not hold (see the counterexample). -/
theorem C2_filter_calls_amended (lg : K → K) (e : RadiSenseSearchEngine K) (query : Str)
    (f : Option (Document K) → Bool) :
    (searchT lg e query (some f)).2 = filterCallSequence e query := by
  unfold searchT filterCallSequence
  by_cases hq : query = starQuery
  · rw [if_pos hq, if_pos hq]
  · rw [if_neg hq, if_neg hq]
    show (e.options.fields.foldl _ ([], [])).2 = _
    exact trace_visitField lg e f _ e.options.fields ([], [])

def optsC2 : RadiSenseSearchOptions ℚ :=
  { fields := ["title".toList, "body".toList], idField := "path".toList }

def docC2 : Document ℚ :=
  [("path".toList, Value.str "a".toList), ("title".toList, Value.str "ab".toList)]

def engC2 : RadiSenseSearchEngine ℚ :=
  addDocuments (fun _ => []) (mkRadiSenseSearchEngine optsC2) [docC2]

/-- C2 counterexample.  One stored document (id `a`, title `ab`), two
configured fields, query `a`: the indexed term `ab` is a prefix match for both
iterated fields, so the always-true filter is invoked twice on document `a`
within the one `search` call — more than once per candidate document. -/
theorem C2_filter_calls_counterexample :
    (searchT (fun _ => 0) engC2 "a".toList (some fun _ => true)).2
        = ["a".toList, "a".toList] ∧
      ¬ List.count "a".toList
          (searchT (fun _ => 0) engC2 "a".toList (some fun _ => true)).2 ≤ 1 := by
  decide

lemma sorted_filter_take (l : List (SearchResult K)) :
    ((((l.mergeSort fun a b => decide (b.score ≤ a.score)).filter
        fun r => decide ((21 : K) / 10 < r.score)).take 34).length ≤ 34) ∧
    (∀ r ∈ ((l.mergeSort fun a b => decide (b.score ≤ a.score)).filter
        fun r => decide ((21 : K) / 10 < r.score)).take 34, (21 : K) / 10 < r.score) ∧
    List.Sorted (fun a b : SearchResult K => b.score ≤ a.score)
      (((l.mergeSort fun a b => decide (b.score ≤ a.score)).filter
        fun r => decide ((21 : K) / 10 < r.score)).take 34) := by
  refine ⟨List.length_take_le _ _, ?_, ?_⟩
  · intro r hr
    exact of_decide_eq_true (List.mem_filter.mp (List.mem_of_mem_take hr)).2
  · have htrans : ∀ a b c : SearchResult K,
        (fun a b : SearchResult K => decide (b.score ≤ a.score)) a b = true →
        (fun a b : SearchResult K => decide (b.score ≤ a.score)) b c = true →
        (fun a b : SearchResult K => decide (b.score ≤ a.score)) a c = true := by
      intro a b c hab hbc
      simp only [decide_eq_true_eq] at hab hbc ⊢
      exact le_trans hbc hab
    have htot : ∀ a b : SearchResult K,
        ((fun a b : SearchResult K => decide (b.score ≤ a.score)) a b ||
          (fun a b : SearchResult K => decide (b.score ≤ a.score)) b a) = true := by
      intro a b
      rcases le_total b.score a.score with h | h <;> simp [h]
    have hs := List.sorted_mergeSort htrans htot l
    have hs2 : List.Sorted (fun a b : SearchResult K => b.score ≤ a.score)
        (l.mergeSort fun a b => decide (b.score ≤ a.score)) :=
      hs.imp fun {a b} hd => of_decide_eq_true hd
    exact List.Pairwise.sublist (List.take_sublist _ _) (List.Pairwise.filter _ hs2)

/-- C6.  For every engine state, non-wildcard query, and filter, the returned
list has at most 34 entries (`slice(0, 34)`), every returned score is strictly
greater than 2.1 (the `score > 2.1` filter, applied before the slice), and the
entries are in non-increasing score order (the descending sort, applied before
filter and slice; both preserve sortedness). -/
theorem C6_results_bounded_and_sorted (lg : K → K) (e : RadiSenseSearchEngine K)
    (query : Str) (filterFunction : Option (Option (Document K) → Bool))
    (hq : query ≠ starQuery) :
    (search lg e query filterFunction).length ≤ 34 ∧
    (∀ r ∈ search lg e query filterFunction, (21 : K) / 10 < r.score) ∧
    List.Sorted (fun a b : SearchResult K => b.score ≤ a.score)
      (search lg e query filterFunction) := by
  obtain ⟨l, hl⟩ : ∃ l : List (SearchResult K),
      search lg e query filterFunction =
        ((l.mergeSort fun a b => decide (b.score ≤ a.score)).filter
          fun r => decide ((21 : K) / 10 < r.score)).take 34 := by
    refine ⟨(e.options.fields.foldl
        (visitField lg e filterFunction
          ((splitSep SPACE_OR_PUNCTUATION (query.map Char.toLower)).filter fun t => !t.isEmpty))
        ([], [])).1.map
        (fun p => SearchResult.mk p.1 p.2 (alLookup p.1 e.documents) (some p.2)), ?_⟩
    unfold search searchT
    rw [if_neg hq]
  rw [hl]
  exact sorted_filter_take l

def optsC6 : RadiSenseSearchOptions ℚ :=
  { fields := ["title".toList], idField := "path".toList }

/-- Witness for C6 at a concrete engine and the concrete non-wildcard query
`a`. -/
theorem C6_results_bounded_and_sorted_witness :
    "a".toList ≠ starQuery ∧
    ((search (fun _ => 0) (mkRadiSenseSearchEngine optsC6) "a".toList none).length ≤ 34 ∧
      (∀ r ∈ search (fun _ => 0) (mkRadiSenseSearchEngine optsC6) "a".toList none,
        (21 : ℚ) / 10 < r.score) ∧
      List.Sorted (fun a b : SearchResult ℚ => b.score ≤ a.score)
        (search (fun _ => 0) (mkRadiSenseSearchEngine optsC6) "a".toList none)) :=
  ⟨by decide,
   C6_results_bounded_and_sorted (fun _ => 0) (mkRadiSenseSearchEngine optsC6) "a".toList none
     (by decide)⟩

lemma alLookup_filter_self {α : Type} (k : Str) (l : List (Str × α)) :
    alLookup k (l.filter fun q => !decide (q.1 = k)) = none := by
  induction l with
  | nil => rfl
  | cons p rest ih =>
    by_cases hp : p.1 = k
    · simp [List.filter_cons, hp, ih]
    · simp [List.filter_cons, hp, alLookup, ih]

/-- C10.  A configured specific-document boost factor of `0` is falsy in JS, so
`if (specificBoost)` skips the multiplication entirely: the candidate is scored
exactly as if no specific boost were configured for that id (in particular its
score is not forced to `0`, so the document can still clear the threshold and
appear in the results). -/
theorem C10_zero_specific_boost_skipped (lg : K → K) (e : RadiSenseSearchEngine K)
    (field : Str) (document : Document K) (documentId indexedTerm : Str) (penaltyFactor : K)
    (h : alLookup documentId e.specificDocumentBoosts = some 0) :
    candidateScore lg e field document documentId indexedTerm penaltyFactor =
      candidateScore lg
        { e with specificDocumentBoosts :=
            e.specificDocumentBoosts.filter fun q => !decide (q.1 = documentId) }
        field document documentId indexedTerm penaltyFactor := by
  simp only [candidateScore, _calculateBM25, h, alLookup_filter_self, eq_self_iff_true, if_true]

def optsC10 : RadiSenseSearchOptions ℚ :=
  { fields := ["title".toList], idField := "path".toList,
    specificDocumentBoosts := some [("a".toList, 0)] }

def engC10 : RadiSenseSearchEngine ℚ := mkRadiSenseSearchEngine optsC10

/-- Witness for C10 at a concrete engine configured with a zero boost factor
for document `a`. -/
theorem C10_zero_specific_boost_skipped_witness :
    alLookup "a".toList engC10.specificDocumentBoosts = some 0 ∧
    candidateScore (fun x => x) engC10 "title".toList [] "a".toList "t".toList 1 =
      candidateScore (fun x => x)
        { engC10 with specificDocumentBoosts :=
            engC10.specificDocumentBoosts.filter fun q => !decide (q.1 = "a".toList) }
        "title".toList [] "a".toList "t".toList 1 :=
  ⟨by decide,
   C10_zero_specific_boost_skipped (fun x => x) engC10 "title".toList [] "a".toList "t".toList 1
     (by decide)⟩

/-- The per-candidate score contribution exactly as claim C5 words it:
`idf * freq * p`, multiplied by the specific boost whenever one is configured
for the id, multiplied by `boost[field]` whenever defined, plus `cb * 0.011`
whenever the custom boost field is configured and carries value `cb` on the
stored document. -/
def candidateScoreSpec (lg : K → K) (e : RadiSenseSearchEngine K) (field : Str)
    (document : Document K) (documentId indexedTerm : Str) (p : K) : K :=
  let postings := (alLookup indexedTerm e.invertedIndex).getD []
  let tf : K := if documentId ∈ postings then 1 else 0
  let df : K := (postings.length : K)
  let idf : K := lg (((e.totalDocuments : K) - df + 1 / 2) / (df + 1 / 2) + 1)
  let len : K := (((alLookup documentId e.documentLengths).getD 0 : Nat) : K)
  let freq : K :=
    tf * (12 / 10 + 1) / (tf + 12 / 10 * (1 - 7 / 10 + 7 / 10 * (len / e.averageDocumentLength)))
      + 1 / 2
  let sbFactor : K :=
    match alLookup documentId e.specificDocumentBoosts with
    | some sb => sb
    | none => 1
  let fieldFactor : K :=
    match e.options.boost with
    | some bm =>
      match alLookup field bm with
      | some bf => bf
      | none => 1
    | none => 1
  let custom : K :=
    match e.options.customBoostFactorField with
    | some cbf =>
      match alLookup cbf document with
      | some (Value.num cb) => cb * (11 / 1000)
      | _ => 0
    | none => 0
  idf * freq * p * sbFactor * fieldFactor + custom

/-- C5, amended.  The code's contribution matches the claimed formula whenever
every configured multiplicative factor involved is non-zero (JS truthiness:
`if (specificBoost)` and `if (boost[field])` skip a configured factor of `0`;
likewise the custom boost field name must not be the empty string).  The
unrestricted claim fails: see the counterexample with a configured boost of
`0`. -/
theorem C5_contribution_amended (lg : K → K) (e : RadiSenseSearchEngine K) (field : Str)
    (document : Document K) (documentId indexedTerm : Str) (penaltyFactor : K)
    (hsb : ∀ sb, alLookup documentId e.specificDocumentBoosts = some sb → sb ≠ 0)
    (hbf : ∀ bm bf, e.options.boost = some bm → alLookup field bm = some bf → bf ≠ 0)
    (hcb : e.options.customBoostFactorField ≠ some []) :
    candidateScore lg e field document documentId indexedTerm penaltyFactor =
      candidateScoreSpec lg e field document documentId indexedTerm penaltyFactor := by
  simp only [candidateScore, candidateScoreSpec, _calculateBM25]
  rcases hb : alLookup documentId e.specificDocumentBoosts with _ | sb <;>
    simp only [hb]
  case none =>
    rcases hm : e.options.boost with _ | bm <;> simp only [hm]
    case none =>
      rcases hc : e.options.customBoostFactorField with _ | cbf <;> simp only [hc]
      case none => ring
      case some =>
        have hne : cbf.isEmpty = false := by
          cases cbf with
          | nil => exact absurd hc hcb
          | cons c cs => rfl
        simp only [hne, Bool.false_eq_true, if_false]
        rcases hcv : alLookup cbf document with _ | v <;> simp only [hcv]
        case none => ring
        case some =>
          cases v <;> simp only [Value.asNum] <;> ring
    case some =>
      rcases hf : alLookup field bm with _ | bf <;> simp only [hf]
      case none =>
        rcases hc : e.options.customBoostFactorField with _ | cbf <;> simp only [hc]
        case none => ring
        case some =>
          have hne : cbf.isEmpty = false := by
            cases cbf with
            | nil => exact absurd hc hcb
            | cons c cs => rfl
          simp only [hne, Bool.false_eq_true, if_false]
          rcases hcv : alLookup cbf document with _ | v <;> simp only [hcv]
          case none => ring
          case some =>
            cases v <;> simp only [Value.asNum] <;> ring
      case some =>
        rw [if_neg (hbf bm bf hm hf)]
        rcases hc : e.options.customBoostFactorField with _ | cbf <;> simp only [hc]
        case none => ring
        case some =>
          have hne : cbf.isEmpty = false := by
            cases cbf with
            | nil => exact absurd hc hcb
            | cons c cs => rfl
          simp only [hne, Bool.false_eq_true, if_false]
          rcases hcv : alLookup cbf document with _ | v <;> simp only [hcv]
          case none => ring
          case some =>
            cases v <;> simp only [Value.asNum] <;> ring
  case some =>
    rw [if_neg (hsb sb hb)]
    rcases hm : e.options.boost with _ | bm <;> simp only [hm]
    case none =>
      rcases hc : e.options.customBoostFactorField with _ | cbf <;> simp only [hc]
      case none => ring
      case some =>
        have hne : cbf.isEmpty = false := by
          cases cbf with
          | nil => exact absurd hc hcb
          | cons c cs => rfl
        simp only [hne, Bool.false_eq_true, if_false]
        rcases hcv : alLookup cbf document with _ | v <;> simp only [hcv]
        case none => ring
        case some =>
          cases v <;> simp only [Value.asNum] <;> ring
    case some =>
      rcases hf : alLookup field bm with _ | bf <;> simp only [hf]
      case none =>
        rcases hc : e.options.customBoostFactorField with _ | cbf <;> simp only [hc]
        case none => ring
        case some =>
          have hne : cbf.isEmpty = false := by
            cases cbf with
            | nil => exact absurd hc hcb
            | cons c cs => rfl
          simp only [hne, Bool.false_eq_true, if_false]
          rcases hcv : alLookup cbf document with _ | v <;> simp only [hcv]
          case none => ring
          case some =>
            cases v <;> simp only [Value.asNum] <;> ring
      case some =>
        rw [if_neg (hbf bm bf hm hf)]
        rcases hc : e.options.customBoostFactorField with _ | cbf <;> simp only [hc]
        case none => ring
        case some =>
          have hne : cbf.isEmpty = false := by
            cases cbf with
            | nil => exact absurd hc hcb
            | cons c cs => rfl
          simp only [hne, Bool.false_eq_true, if_false]
          rcases hcv : alLookup cbf document with _ | v <;> simp only [hcv]
          case none => ring
          case some =>
            cases v <;> simp only [Value.asNum] <;> ring

def optsC5 : RadiSenseSearchOptions ℝ :=
  { fields := ["title".toList], idField := "path".toList,
    specificDocumentBoosts := some [("a".toList, 0)] }

def docC5 : Document ℝ :=
  [("path".toList, Value.str "a".toList), ("title".toList, Value.str "t".toList)]

def engC5 : RadiSenseSearchEngine ℝ :=
  addDocuments (fun _ => []) (mkRadiSenseSearchEngine optsC5) [docC5]

/-- C5 counterexample.  A reachable engine (one indexed document `a` with title
`t`) configured with a specific boost factor of `0` for `a`: on the candidate
`(a, t, title)` with the prefix penalty `0.375`, the code skips the falsy boost
and contributes a strictly positive score, while the claimed formula multiplies
by the configured factor `0` and yields `0` — so the claimed equality fails. -/
theorem C5_contribution_counterexample :
    alLookup "a".toList engC5.specificDocumentBoosts = some 0 ∧
    candidateScore Real.log engC5 "title".toList docC5 "a".toList "t".toList (375 / 1000) ≠
      candidateScoreSpec Real.log engC5 "title".toList docC5 "a".toList "t".toList
        (375 / 1000) := by
  have h1 : alLookup "a".toList engC5.specificDocumentBoosts = some 0 := rfl
  have h2 : alLookup "t".toList engC5.invertedIndex = some ["a".toList] := rfl
  have h3 : alLookup "a".toList engC5.documentLengths = some 1 := rfl
  have h4 : engC5.totalDocuments = 1 := rfl
  have h5 : engC5.averageDocumentLength = 0 := rfl
  have h6 : engC5.options.boost = none := rfl
  have h7 : engC5.options.customBoostFactorField = none := rfl
  refine ⟨h1, ?_⟩
  have hmem : "a".toList ∈ ["a".toList] := List.mem_singleton_self _
  have hL : candidateScore Real.log engC5 "title".toList docC5 "a".toList "t".toList
      (375 / 1000) = Real.log (4 / 3) * (36 / 17) * (375 / 1000) := by
    simp only [candidateScore, _calculateBM25, h1, h2, h3, h4, h5, h6, h7,
      eq_self_iff_true, if_true, Option.getD_some, if_pos hmem, List.length_singleton,
      Nat.cast_one]
    norm_num
  have hR : candidateScoreSpec Real.log engC5 "title".toList docC5 "a".toList "t".toList
      (375 / 1000) = 0 := by
    simp only [candidateScoreSpec, h1, h2, h3, h4, h5, h6, h7]
    ring
  rw [hL, hR]
  have hpos : (0 : ℝ) < Real.log (4 / 3) * (36 / 17) * (375 / 1000) := by
    have hlog : (0 : ℝ) < Real.log (4 / 3) := Real.log_pos (by norm_num)
    positivity
  exact ne_of_gt hpos

def optsC5w : RadiSenseSearchOptions ℚ :=
  { fields := ["title".toList], idField := "path".toList,
    specificDocumentBoosts := some [("a".toList, 2)] }

def engC5w : RadiSenseSearchEngine ℚ := mkRadiSenseSearchEngine optsC5w

/-- Witness for the amended C5 at a concrete engine with a non-zero configured
specific boost. -/
theorem C5_contribution_amended_witness :
    (∀ sb : ℚ, alLookup "a".toList engC5w.specificDocumentBoosts = some sb → sb ≠ 0) ∧
    candidateScore (fun x => x) engC5w "title".toList [] "a".toList "t".toList 1 =
      candidateScoreSpec (fun x => x) engC5w "title".toList [] "a".toList "t".toList 1 :=
  ⟨fun sb h => by
      rw [show alLookup "a".toList engC5w.specificDocumentBoosts = some 2 from rfl] at h
      rw [← Option.some_inj.mp h]
      decide,
   C5_contribution_amended (fun x => x) engC5w "title".toList [] "a".toList "t".toList 1
     (fun sb h => by
        rw [show alLookup "a".toList engC5w.specificDocumentBoosts = some 2 from rfl] at h
        rw [← Option.some_inj.mp h]
        decide)
     (fun bm bf hm _ => Option.noConfusion hm)
     (by decide)⟩

lemma take_succ_of_lt {α : Type} (l : List α) (j : Nat) (c : α) (h : j < l.length) :
    l.take (j + 1) = l.take j ++ [l.getD j c] := by
  rw [List.take_succ, List.getElem?_eq_getElem h]
  simp [List.getD_eq_getElem?_getD, List.getElem?_eq_getElem h]

lemma levMatrix_col_zero (s t : Str) (i : Nat) : levMatrix s t i 0 = i := by
  cases i <;> rfl

lemma levMatrix_succ (s t : Str) (i j : Nat) :
    levMatrix s t (i + 1) (j + 1) =
      min (levMatrix s t i (j + 1) + 1)
        (min (levMatrix s t (i + 1) j + 1)
          (levMatrix s t i j + if s.getD j ' ' = t.getD i ' ' then 0 else 1)) := rfl

lemma take_eq_append_one {α : Type} (l u : List α) (a c : α) (j : Nat)
    (hj : j ≤ l.length) (h : l.take j = u ++ [a]) :
    j = u.length + 1 ∧ u.length < l.length ∧ u = l.take u.length ∧ l.getD u.length c = a := by
  have hlen : j = u.length + 1 := by
    have h2 := congrArg List.length h
    rw [List.length_take, Nat.min_eq_left hj] at h2
    simpa using h2
  have hlt : u.length < l.length := by omega
  have h3 : l.take u.length ++ [l.getD u.length c] = u ++ [a] := by
    rw [← take_succ_of_lt l u.length c hlt, ← hlen]
    exact h
  obtain ⟨h4, h5⟩ := List.append_inj h3
    (by rw [List.length_take, Nat.min_eq_left (le_of_lt hlt)])
  exact ⟨hlen, hlt, h4.symm, by simpa using h5⟩

lemma editScript_levMatrix (s t : Str) :
    ∀ i, i ≤ t.length → ∀ j, j ≤ s.length →
      EditScript (levMatrix s t i j) (s.take j) (t.take i) := by
  intro i
  induction i with
  | zero =>
    intro _ j
    induction j with
    | zero => intro _; exact EditScript.nil
    | succ j ihj =>
      intro hj
      have hj' : j < s.length := hj
      rw [take_succ_of_lt s j ' ' hj']
      exact EditScript.delete _ (ihj (le_of_lt hj'))
  | succ i ihi =>
    intro hi j
    have hi' : i < t.length := hi
    induction j with
    | zero =>
      intro _
      rw [take_succ_of_lt t i ' ' hi']
      have h0 := ihi (le_of_lt hi') 0 (Nat.zero_le _)
      rw [levMatrix_col_zero] at h0
      exact EditScript.insert _ h0
    | succ j ihj =>
      intro hj
      have hj' : j < s.length := hj
      rw [levMatrix_succ]
      rcases min_choice (levMatrix s t i (j + 1) + 1)
          (min (levMatrix s t (i + 1) j + 1)
            (levMatrix s t i j + if s.getD j ' ' = t.getD i ' ' then 0 else 1)) with
        hmin | hmin
      · rw [hmin, take_succ_of_lt t i ' ' hi']
        exact EditScript.insert _ (ihi (le_of_lt hi') (j + 1) hj)
      · rcases min_choice (levMatrix s t (i + 1) j + 1)
            (levMatrix s t i j + if s.getD j ' ' = t.getD i ' ' then 0 else 1) with hmin2 | hmin2
        · rw [hmin, hmin2, take_succ_of_lt s j ' ' hj']
          exact EditScript.delete _ (ihj (le_of_lt hj'))
        · rw [hmin, hmin2, take_succ_of_lt s j ' ' hj', take_succ_of_lt t i ' ' hi']
          by_cases hch : s.getD j ' ' = t.getD i ' '
          · rw [if_pos hch, Nat.add_zero, hch]
            exact EditScript.keep _ (ihi (le_of_lt hi') j (le_of_lt hj'))
          · rw [if_neg hch]
            exact EditScript.substitute _ _ (ihi (le_of_lt hi') j (le_of_lt hj'))

lemma levMatrix_le_of_editScript (s t : Str) :
    ∀ {n : Nat} {u v : Str}, EditScript n u v →
      ∀ i j, i ≤ t.length → j ≤ s.length → u = s.take j → v = t.take i →
        levMatrix s t i j ≤ n := by
  intro n u v hsc
  induction hsc with
  | nil =>
    intro i j hi hj hu hv
    have hj0 : j = 0 := by
      have h2 := congrArg List.length hu
      rw [List.length_take, Nat.min_eq_left hj] at h2
      simpa using h2.symm
    have hi0 : i = 0 := by
      have h2 := congrArg List.length hv
      rw [List.length_take, Nat.min_eq_left hi] at h2
      simpa using h2.symm
    subst hj0; subst hi0
    exact Nat.le_of_eq rfl
  | @keep a n0 u0 v0 hsc ih =>
    intro i j hi hj hu hv
    obtain ⟨hj1, hjlt, hu1, hc1⟩ := take_eq_append_one s u0 a ' ' j hj hu.symm
    obtain ⟨hi1, hilt, hv1, hc2⟩ := take_eq_append_one t v0 a ' ' i hi hv.symm
    subst hj1; subst hi1
    rw [levMatrix_succ]
    have hcost : s.getD u0.length ' ' = t.getD v0.length ' ' := by rw [hc1, hc2]
    calc min (levMatrix s t v0.length (u0.length + 1) + 1)
          (min (levMatrix s t (v0.length + 1) u0.length + 1)
            (levMatrix s t v0.length u0.length +
              if s.getD u0.length ' ' = t.getD v0.length ' ' then 0 else 1))
        ≤ levMatrix s t v0.length u0.length +
            if s.getD u0.length ' ' = t.getD v0.length ' ' then 0 else 1 :=
          le_trans (min_le_right _ _) (min_le_right _ _)
      _ = levMatrix s t v0.length u0.length := by rw [if_pos hcost, Nat.add_zero]
      _ ≤ n0 := ih v0.length u0.length (le_of_lt hilt) (le_of_lt hjlt) hu1 hv1
  | @substitute a b n0 u0 v0 hsc ih =>
    intro i j hi hj hu hv
    obtain ⟨hj1, hjlt, hu1, _⟩ := take_eq_append_one s u0 a ' ' j hj hu.symm
    obtain ⟨hi1, hilt, hv1, _⟩ := take_eq_append_one t v0 b ' ' i hi hv.symm
    subst hj1; subst hi1
    rw [levMatrix_succ]
    have hone : (if s.getD u0.length ' ' = t.getD v0.length ' ' then 0 else 1) ≤ 1 := by
      by_cases hch : s.getD u0.length ' ' = t.getD v0.length ' '
      · rw [if_pos hch]; omega
      · rw [if_neg hch]
    have h2 := ih v0.length u0.length (le_of_lt hilt) (le_of_lt hjlt) hu1 hv1
    exact le_trans (le_trans (min_le_right _ _) (min_le_right _ _)) (by omega)
  | @delete a n0 u0 v0 hsc ih =>
    intro i j hi hj hu hv
    obtain ⟨hj1, hjlt, hu1, _⟩ := take_eq_append_one s u0 a ' ' j hj hu.symm
    subst hj1
    cases i with
    | zero =>
      have h2 := ih 0 u0.length (Nat.zero_le _) (le_of_lt hjlt) hu1 hv
      have h3 : levMatrix s t 0 u0.length = u0.length := rfl
      show u0.length + 1 ≤ n0 + 1
      rw [h3] at h2
      omega
    | succ i0 =>
      rw [levMatrix_succ]
      have h2 := ih (i0 + 1) u0.length hi (le_of_lt hjlt) hu1 hv
      exact le_trans (le_trans (min_le_right _ _) (min_le_left _ _)) (Nat.succ_le_succ h2)
  | @insert b n0 u0 v0 hsc ih =>
    intro i j hi hj hu hv
    obtain ⟨hi1, hilt, hv1, _⟩ := take_eq_append_one t v0 b ' ' i hi hv.symm
    subst hi1
    cases j with
    | zero =>
      have h2 := ih v0.length 0 (le_of_lt hilt) (Nat.zero_le _) hu hv1
      have h3 : levMatrix s t v0.length 0 = v0.length := levMatrix_col_zero s t _
      show levMatrix s t (v0.length + 1) 0 ≤ n0 + 1
      have h4 : levMatrix s t (v0.length + 1) 0 = v0.length + 1 := rfl
      rw [h4]
      rw [h3] at h2
      omega
    | succ j0 =>
      rw [levMatrix_succ]
      have h2 := ih v0.length (j0 + 1) (le_of_lt hilt) hj hu hv1
      exact le_trans (min_le_left _ _) (Nat.succ_le_succ h2)

/-- C7.  The source's `_levenshteinDistance` computes exactly the Levenshtein
edit distance: there is an edit script of that cost transforming the source
string into the target string, and no edit script of single-character
insertions, deletions, and substitutions does it more cheaply. -/
theorem C7_levenshtein_is_minimal_edit_count (source target : Str) :
    EditScript (_levenshteinDistance source target) source target ∧
    ∀ n, EditScript n source target → _levenshteinDistance source target ≤ n := by
  constructor
  · have h := editScript_levMatrix source target target.length (le_refl _)
      source.length (le_refl _)
    rwa [List.take_length, List.take_length] at h
  · intro n h
    exact levMatrix_le_of_editScript source target h target.length source.length (le_refl _)
      (le_refl _) (List.take_length source).symm (List.take_length target).symm

/-- Witness for C7: the distance between `kitten` and `sitting` evaluates to 3,
and the theorem instantiates there to produce a three-edit script. -/
theorem C7_levenshtein_is_minimal_edit_count_witness :
    _levenshteinDistance "kitten".toList "sitting".toList = 3 ∧
    EditScript (_levenshteinDistance "kitten".toList "sitting".toList) "kitten".toList
      "sitting".toList :=
  ⟨by decide, (C7_levenshtein_is_minimal_edit_count "kitten".toList "sitting".toList).1⟩

lemma charOfNat_toNat {n : Nat} (h : n < 55296) : (Char.ofNat n).toNat = n := by
  have hv : n.isValidChar := Or.inl h
  simp only [Char.ofNat, dif_pos hv]
  simp only [Char.ofNatAux, Char.toNat, UInt32.toNat]
  exact BitVec.toNat_ofNatLt _ _

lemma toLower_toLower (c : Char) : (Char.toLower c).toLower = c.toLower := by
  by_cases h : c.toNat ≥ 65 ∧ c.toNat ≤ 90
  · have hlo : Char.toLower c = Char.ofNat (c.toNat + 32) := by
      simp only [Char.toLower]
      rw [if_pos h]
    rw [hlo]
    have h32 : (Char.ofNat (c.toNat + 32)).toNat = c.toNat + 32 := charOfNat_toNat (by omega)
    simp only [Char.toLower]
    rw [if_neg (by rw [h32]; omega)]
  · have hlo : Char.toLower c = c := by
      simp only [Char.toLower]
      rw [if_neg h]
    rw [hlo, hlo]

lemma map_toLower_fixed (v : Str) (c : Char) (h : c ∈ v.map Char.toLower) :
    Char.toLower c = c := by
  obtain ⟨d, _, rfl⟩ := List.mem_map.mp h
  exact toLower_toLower d

lemma map_toLower_of_fixed (t : Str) (h : ∀ c ∈ t, Char.toLower c = c) :
    t.map Char.toLower = t := by
  induction t with
  | nil => rfl
  | cons c cs ih =>
    simp only [List.map_cons]
    rw [h c (List.mem_cons_self c cs), ih fun d hd => h d (List.mem_cons_of_mem c hd)]

lemma headI_mem_of_ne_nil {α : Type} [Inhabited α] (l : List α) (h : l ≠ []) : l.headI ∈ l := by
  cases l with
  | nil => exact absurd rfl h
  | cons x xs => exact List.mem_cons_self x xs

lemma splitSep_ne_nil (p : Char → Bool) (l : Str) : splitSep p l ≠ [] := by
  cases l with
  | nil => simp [splitSep]
  | cons c cs =>
    simp only [splitSep]
    by_cases h : p c = true
    · simp [h]
    · simp [h]

lemma mem_splitSep (p : Char → Bool) :
    ∀ (l : Str) (t : Str), t ∈ splitSep p l → ∀ c ∈ t, p c = false ∧ c ∈ l := by
  intro l
  induction l with
  | nil =>
    intro t ht c hc
    simp only [splitSep, List.mem_singleton] at ht
    subst ht
    cases hc
  | cons d ds ih =>
    intro t ht c hc
    simp only [splitSep] at ht
    by_cases h : p d = true
    · rw [if_pos h] at ht
      rcases List.mem_cons.mp ht with h1 | h1
      · subst h1; cases hc
      · obtain ⟨h2, h3⟩ := ih t h1 c hc
        exact ⟨h2, List.mem_cons_of_mem d h3⟩
    · rw [if_neg h] at ht
      rcases List.mem_cons.mp ht with h1 | h1
      · subst h1
        rcases List.mem_cons.mp hc with h2 | h2
        · subst h2
          exact ⟨by simpa using h, List.mem_cons_self _ _⟩
        · have hh : (splitSep p ds).headI ∈ splitSep p ds :=
            headI_mem_of_ne_nil _ (splitSep_ne_nil p ds)
          obtain ⟨h3, h4⟩ := ih _ hh c h2
          exact ⟨h3, List.mem_cons_of_mem d h4⟩
      · have h5 : t ∈ splitSep p ds := List.mem_of_mem_tail h1
        obtain ⟨h3, h4⟩ := ih t h5 c hc
        exact ⟨h3, List.mem_cons_of_mem d h4⟩

lemma splitSep_no_sep (p : Char → Bool) :
    ∀ (l : Str), (∀ c ∈ l, p c = false) → splitSep p l = [l] := by
  intro l
  induction l with
  | nil => intro _; rfl
  | cons c cs ih =>
    intro h
    have hc : p c = false := h c (List.mem_cons_self c cs)
    have hr : splitSep p cs = [cs] := ih fun d hd => h d (List.mem_cons_of_mem c hd)
    simp only [splitSep, hr]
    rw [if_neg (by simp [hc])]
    rfl

lemma isUrlLike_has_slash (v : Str) (h : isUrlLike v = true) : '/' ∈ v := by
  unfold isUrlLike at h
  have h2 : v.tails.any slashNoSpaceSuffix = true := by
    have := (Bool.and_eq_true _ _) ▸ h
    exact this.2
  obtain ⟨suf, hmem, hsuf⟩ := List.any_eq_true.mp h2
  cases suf with
  | nil => simp [slashNoSpaceSuffix] at hsuf
  | cons c rest =>
    simp only [slashNoSpaceSuffix] at hsuf
    have hparts := (Bool.and_eq_true _ _) ▸ hsuf
    have hceq : c = '/' := of_decide_eq_true hparts.1
    subst hceq
    have hsub : ('/' :: rest) <:+ v := (List.mem_tails _ _).mp hmem
    exact hsub.subset (List.mem_cons_self _ _)

/-- C8.  The tokenizer is idempotent on its own output: every term it emits for
a field value (the single URL-bypass term, or a non-empty split piece)
re-tokenizes to exactly the one-element sequence containing that term.  A split
piece contains no separator character — in particular no slash, so the URL
bypass cannot fire on it — and terms are already lowercase; a URL-bypass term
is lowercase and still passes the URL test. -/
theorem C8_tokenizer_idempotent (fieldValue t : Str) (h : t ∈ emitTerms fieldValue) :
    emitTerms t = [t] := by
  unfold emitTerms at h
  by_cases hu : isUrlLike (fieldValue.map Char.toLower) = true
  · rw [if_pos hu] at h
    have ht : t = fieldValue.map Char.toLower := by simpa using h
    subst ht
    have hfix : (fieldValue.map Char.toLower).map Char.toLower = fieldValue.map Char.toLower :=
      map_toLower_of_fixed _ fun c hc => map_toLower_fixed fieldValue c hc
    unfold emitTerms
    rw [hfix, if_pos hu]
  · rw [if_neg hu] at h
    have hmf := List.mem_filter.mp h
    have htm := hmf.1
    have hne : t ≠ [] := by
      intro hcontra
      subst hcontra
      simp [List.isEmpty] at hmf
    have hchars := mem_splitSep SPACE_OR_PUNCTUATION _ t htm
    have hfix : t.map Char.toLower = t :=
      map_toLower_of_fixed t fun c hc => map_toLower_fixed fieldValue c (hchars c hc).2
    have hnourl : isUrlLike t = false := by
      cases hh : isUrlLike t
      · rfl
      · exfalso
        have hs := isUrlLike_has_slash t hh
        have hsep := (hchars '/' hs).1
        rw [show SPACE_OR_PUNCTUATION '/' = true from by decide] at hsep
        cases hsep
    have hempty : t.isEmpty = false := by
      cases t with
      | nil => exact absurd rfl hne
      | cons c cs => rfl
    unfold emitTerms
    rw [hfix]
    show (if isUrlLike t = true then [t]
        else (splitSep SPACE_OR_PUNCTUATION t).filter fun s => !s.isEmpty) = [t]
    rw [hnourl]
    simp only [Bool.false_eq_true, if_false]
    rw [splitSep_no_sep SPACE_OR_PUNCTUATION t fun c hc => (hchars c hc).1]
    simp [List.filter, hempty]

/-- Witness for C8: tokenizing the field value `Hello world` emits the term
`hello`, and re-tokenizing `hello` yields exactly `[hello]`. -/
theorem C8_tokenizer_idempotent_witness :
    "hello".toList ∈ emitTerms "Hello world".toList ∧
      emitTerms "hello".toList = ["hello".toList] :=
  ⟨by decide, C8_tokenizer_idempotent "Hello world".toList "hello".toList (by decide)⟩
